import Mathlib

/-!
Verification development for `cmd/gitannex/gitannex.go`: the git-annex
external-special-remote protocol engine of rclone.  Strings are embedded as
lists of characters (`Str`).  Go functions are translated one-to-one into
executable Lean definitions; stateful code threads an explicit `ServerSt`
record.  Collaborators that live outside the translated file (the storage
delegate, layout parsing, locator construction) are modelled from the spec as
an explicit `Backend` record of functions.
-/

/-- Go strings are embedded as lists of characters. -/
abbrev Str := List Char

/-- Embed a Lean string literal as a `Str`. -/
def str (s : String) : Str := s.toList

/-- Is this character one of the line terminators stripped by
`strings.TrimRight(line, "\r\n")`? -/
def isCRLF (c : Char) : Bool := c = '\r' ∨ c = '\n'

/-- `strings.TrimRight(s, "\r\n")`: remove the maximal trailing run of
carriage-return and newline characters. -/
def trimRightRN : Str → Str
  | [] => []
  | c :: cs =>
    match trimRightRN cs with
    | [] => if isCRLF c then [] else [c]
    | r => c :: r

/-- `strings.Cut(s, " ")`: split around the first space.  Returns
`some (before, after)` when a space is found (Go's `found = true`) and `none`
otherwise. -/
def cutSpace : Str → Option (Str × Str)
  | [] => none
  | c :: cs =>
    if c = ' ' then some ([], cs)
    else
      match cutSpace cs with
      | some (before, after) => some (c :: before, after)
      | none => none

/-- `messageParser` helps parse messages received from git-annex into a
sequence of parameters (gitannex.go line 76). -/
structure messageParser where
  line : Str
deriving DecidableEq, Repr

/-- `messageParser.nextSpaceDelimitedParameter` (gitannex.go line 81):
consumes the next space-delimited parameter.  `Except.error` carries the Go
error text. -/
def messageParser.nextSpaceDelimitedParameter (m : messageParser) :
    Except Str (Str × messageParser) :=
  let line := trimRightRN m.line
  if line = [] then
    Except.error (str "nothing remains to parse")
  else
    match cutSpace line with
    | some (before, after) =>
      if before = [] then
        Except.error (str "found an empty space-delimited parameter in line")
      else
        Except.ok (before, ⟨after⟩)
    | none => Except.ok (line, ⟨[]⟩)

/-- `messageParser.finalParameter` (gitannex.go line 102): consumes the final
parameter, which may contain spaces.  In Go both branches leave `m.line`
empty, so the resulting parser state is uniformly `⟨[]⟩`. -/
def messageParser.finalParameter (m : messageParser) : Str × messageParser :=
  (trimRightRN m.line, ⟨[]⟩)

/-- One read attempt on the inbound stream, i.e. one outcome of
`bufio.Reader.ReadString('\n')` inside `server.getMsg` (gitannex.go line 176):
either a full line was read (including its terminating newline), or the read
failed having consumed zero bytes (git-annex closed stdin), or the read failed
leaving a nonempty line fragment without a terminating newline. -/
inductive ReadOutcome where
  | line (msg : Str)
  | eofRead
  | errIncomplete (msg : Str)
deriving DecidableEq, Repr

/-- The `server` struct (gitannex.go line 143).  The `bufio.Reader` is
embedded as the list `inbound` of remaining read outcomes and the `io.Writer`
as the list `sent` of messages passed to `sendMsg` so far (each written to the
wire followed by one newline).  The `verbose` flag only mirrors traffic to
stderr and is omitted. -/
structure ServerSt where
  inbound : List ReadOutcome
  sent : List Str
  extensionInfo : Bool
  extensionAsync : Bool
  extensionGetGitRemoteName : Bool
  extensionUnavailableResponse : Bool
  configsDone : Bool
  configPrefixDir : Str
  configRcloneRemoteName : Str
  configRcloneLayout : Str
deriving DecidableEq, Repr

/-- `server.sendMsg` (gitannex.go line 162): write `msg` plus a newline to the
outbound stream. -/
def sendMsg (msg : Str) (s : ServerSt) : ServerSt :=
  { s with sent := s.sent ++ [msg] }

/-- `server.getMsg` (gitannex.go line 175).  A read error with zero bytes
consumed is a clean end of stream (`Except.ok none`); a read error that leaves
a partial line is a protocol error.  An exhausted modelled stream reads as a
clean end of stream. -/
def getMsgM (s : ServerSt) : Except Str (Option messageParser) × ServerSt :=
  match s.inbound with
  | [] => (Except.ok none, s)
  | r :: rest =>
    match r with
    | ReadOutcome.line msg => (Except.ok (some ⟨msg⟩), { s with inbound := rest })
    | ReadOutcome.eofRead => (Except.ok none, { s with inbound := rest })
    | ReadOutcome.errIncomplete msg =>
      (Except.error (str "expected message to end with newline: \"" ++ msg ++ str "\""),
       { s with inbound := rest })

/-- The session field a `configDefinition.destination` pointer refers to.  Go
uses `*string` pointers into the `server` struct; the embedding names the
three possible targets. -/
inductive ConfigField where
  | rcloneRemoteName
  | prefixDir
  | rcloneLayout
deriving DecidableEq, Repr

/-- Write through a `configDefinition.destination` pointer. -/
def setField (f : ConfigField) (v : Str) (s : ServerSt) : ServerSt :=
  match f with
  | ConfigField.rcloneRemoteName => { s with configRcloneRemoteName := v }
  | ConfigField.prefixDir => { s with configPrefixDir := v }
  | ConfigField.rcloneLayout => { s with configRcloneLayout := v }

/-- Read through a `configDefinition.destination` pointer. -/
def getField (f : ConfigField) (s : ServerSt) : Str :=
  match f with
  | ConfigField.rcloneRemoteName => s.configRcloneRemoteName
  | ConfigField.prefixDir => s.configPrefixDir
  | ConfigField.rcloneLayout => s.configRcloneLayout

/-- `configDefinition` (gitannex.go line 115): a configuration value required
by this command, queried from git-annex with GETCONFIG messages. -/
structure configDefinition where
  names : List Str
  description : Str
  destination : ConfigField
  defaultValue : Option Str
deriving DecidableEq, Repr

/-- `configDefinition.getCanonicalName` (gitannex.go line 122).  Go panics
when `names` is empty; the embedding returns `[]` there, a case that never
arises for the definitions produced by `getRequiredConfigs`. -/
def configDefinition.getCanonicalName (c : configDefinition) : Str :=
  c.names.headD []

/-- `configDefinition.fullDescription` (gitannex.go line 132). -/
def configDefinition.fullDescription (c : configDefinition) : Str :=
  if c.names.length ≤ 1 then c.description
  else
    str "(synonyms: " ++ List.intercalate (str ", ") (c.names.drop 1) ++
      str ") " ++ c.description

/-- `server.getRequiredConfigs` (gitannex.go line 323).  The description of
the layout config interpolates `allLayoutModes()`, which lives outside the
translated file; its text is abbreviated here and is never inspected by any
theorem. -/
def getRequiredConfigs : List configDefinition :=
  [⟨[str "rcloneremotename", str "target"],
    str "Name of the rclone remote to use. Must match a remote known to rclone. (Note that rclone remotes are a distinct concept from git-annex remotes.)",
    ConfigField.rcloneRemoteName,
    none⟩,
   ⟨[str "rcloneprefix", str "prefix"],
    str "Directory where rclone will write git-annex content. If not specified, defaults to \"git-annex-rclone\". This directory will be created on init if it does not exist.",
    ConfigField.prefixDir,
    some (str "git-annex-rclone")⟩,
   ⟨[str "rclonelayout", str "rclone_layout"],
    str "Defines where, within the rcloneprefix directory, rclone will write git-annex content. Must be one of the known layout modes. If empty, defaults to \"nodir\".",
    ConfigField.rcloneLayout,
    some (str "nodir")⟩]

/-- The inner loop of `server.queryConfigs` (gitannex.go lines 367-386): try
each of the config's names in sequence, starting with the canonical name.
Returns `true` when a non-empty value was received (Go's `valueReceived`).
When `getMsg` yields a nil message the Go code would dereference a nil
pointer; the embedding reports that as an error. -/
def tryNames : List Str → ConfigField → ServerSt → Except Str Bool × ServerSt
  | [], _, s => (Except.ok false, s)
  | configName :: rest, dest, s =>
    match getMsgM (sendMsg (str "GETCONFIG " ++ configName) s) with
    | (Except.error e, s) => (Except.error e, s)
    | (Except.ok none, s) =>
      (Except.error (str "panic: nil message from getMsg"), s)
    | (Except.ok (some message), s) =>
      match message.nextSpaceDelimitedParameter with
      | Except.error _ =>
        (Except.error (str "failed to parse config value"), s)
      | Except.ok (valueKeyword, message) =>
        if valueKeyword ≠ str "VALUE" then
          (Except.error (str "failed to parse config value"), s)
        else
          let value := (message.finalParameter).1
          if value ≠ [] then (Except.ok true, setField dest value s)
          else tryNames rest dest s

/-- The body of `server.queryConfigs` for a single config definition
(gitannex.go lines 363-393): run `tryNames` over the definition's names; when
no name yields a non-empty value, fall back to the default, or fail with an
error naming the canonical config name. -/
def resolveOne (c : configDefinition) (s : ServerSt) :
    Except Str Unit × ServerSt :=
  match tryNames c.names c.destination s with
  | (Except.error e, s) => (Except.error e, s)
  | (Except.ok true, s) => (Except.ok (), s)
  | (Except.ok false, s) =>
    match c.defaultValue with
    | none =>
      (Except.error
        (str "did not receive a non-empty config value for \"" ++
          c.getCanonicalName ++ str "\""), s)
    | some d => (Except.ok (), setField c.destination d s)

/-- `server.queryConfigs`'s loop over all config definitions. -/
def resolveAll : List configDefinition → ServerSt → Except Str Unit × ServerSt
  | [], s => (Except.ok (), s)
  | c :: cs, s =>
    match resolveOne c s with
    | (Except.error e, s) => (Except.error e, s)
    | (Except.ok _, s) => resolveAll cs s

/-- `server.queryConfigs` (gitannex.go line 356): query git-annex for config
values; a no-op once `configsDone` is set, which happens only after every
definition has resolved. -/
def queryConfigs (s : ServerSt) : Except Str Unit × ServerSt :=
  if s.configsDone then (Except.ok (), s)
  else
    match resolveAll getRequiredConfigs s with
    | (Except.error e, s) => (Except.error e, s)
    | (Except.ok _, s) => (Except.ok (), { s with configsDone := true })

/-- Modelled from the spec: `parseLayoutMode` and `allLayoutModes` live
outside the translated file.  Per spec section 3, a layout mode is "an
enumerated value (including an explicit unknown/invalid sentinel)"; the
handlers under verification only ever compare against the sentinel. -/
inductive LayoutMode where
  | mode (tag : Str)
  | layoutModeUnknown
deriving DecidableEq, Repr

/-- Modelled from the spec: an opaque storage handle returned by the Storage
Delegate's `resolveHandle` (spec section 6); `cache.Get` in the source. -/
structure Fs where
  id : Nat
deriving DecidableEq, Repr

/-- Modelled from the spec: an opaque object handle returned by the Storage
Delegate's `lookupObject` (spec section 6); `Fs.NewObject` in the source. -/
structure FsObject where
  id : Nat
deriving DecidableEq, Repr

/-- Modelled from the spec: the result of `fspath.Parse`, which splits a
backend locator string into a name and a path component. -/
structure FspathParsed where
  name : Str
  path : Str
deriving DecidableEq, Repr

/-- Outcome of an object lookup (`Fs.NewObject`): an object, the sentinel
`fs.ErrorObjectNotFound`, or any other error. -/
inductive NewObjectResult where
  | ok (obj : FsObject)
  | errObjectNotFound
  | errOther (e : Str)
deriving DecidableEq, Repr

/-- Outcome of `operations.CopyFile`: success, the sentinel
`fs.ErrorObjectNotFound`, or any other error. -/
inductive CopyResult where
  | ok
  | errObjectNotFound
  | errOther (e : Str)
deriving DecidableEq, Repr

/-- The `Error()` text of a failed `operations.CopyFile`, interpolated into
TRANSFER-FAILURE messages; `fs.ErrorObjectNotFound` prints as
"object not found". -/
def CopyResult.errText : CopyResult → Str
  | CopyResult.ok => []
  | CopyResult.errObjectNotFound => str "object not found"
  | CopyResult.errOther e => e

/-- Modelled from the spec: the Storage Delegate and locator-construction
collaborators (spec sections 1, 6), which live outside the translated file.
`parseLayoutMode`, `buildFsString` (the spec's `buildLocator`; its optional
dirhash reverse queries are abstracted into the returned outcome),
`cache.Get` (`resolveHandle`), `Fs.NewObject` (`lookupObject`),
`operations.DeleteFile` (`deleteObject`, `none` meaning success),
`operations.CopyFile` (`copy`), `config.GetRemoteNames`
(`listKnownRemoteNames`), `fspath.Parse`, `fs.Find` (`findBackend`), and Go's
`filepath.Dir`/`filepath.Base`. -/
structure Backend where
  parseLayoutMode : Str → LayoutMode
  buildFsString : LayoutMode → Str → Str → Str → Except Str Str
  cacheGet : Str → Except Str Fs
  newObject : Fs → Str → NewObjectResult
  deleteFile : FsObject → Option Str
  copyFile : Fs → Fs → Str → Str → CopyResult
  getRemoteNames : List Str
  fspathParse : Str → Except Str FspathParsed
  fsFind : Str → Bool
  filepathDir : Str → Str
  filepathBase : Str → Str

/-- Go's `strings.TrimSuffix`. -/
def trimSuffix (s suf : Str) : Str :=
  if suf.isSuffixOf s then s.take (s.length - suf.length) else s

/-- Go's `strings.TrimPrefix`. -/
def trimPrefixOf (s pre : Str) : Str :=
  if pre.isPrefixOf s then s.drop pre.length else s

/-- `server.handleInitRemote` (gitannex.go line 272). -/
def handleInitRemote (env : Backend) (s : ServerSt) :
    Except Str Unit × ServerSt :=
  match queryConfigs s with
  | (Except.error e, s) => (Except.error (str "failed to get configs: " ++ e), s)
  | (Except.ok _, s) =>
    let trimmedName := trimSuffix s.configRcloneRemoteName (str ":")
    if trimmedName ∈ env.getRemoteNames then
      (Except.ok (), sendMsg (str "INITREMOTE-SUCCESS") s)
    else
      let maybeBackend := List.isPrefixOf (str ":") s.configRcloneRemoteName
      if !maybeBackend then
        (Except.error (str "remote does not exist: " ++ s.configRcloneRemoteName),
         sendMsg (str "INITREMOTE-FAILURE remote does not exist: " ++
           s.configRcloneRemoteName) s)
      else
        match env.fspathParse s.configRcloneRemoteName with
        | Except.error _ =>
          (Except.error (str "remote could not be parsed as a backend: " ++
             s.configRcloneRemoteName),
           sendMsg (str "INITREMOTE-FAILURE remote could not be parsed as a backend: " ++
             s.configRcloneRemoteName) s)
        | Except.ok parsed =>
          if parsed.path ≠ [] then
            (Except.error (str "backend must not have a path: " ++
               s.configRcloneRemoteName),
             sendMsg (str "INITREMOTE-FAILURE backend must not have a path: " ++
               s.configRcloneRemoteName) s)
          else
            let trimmedBackendName := trimPrefixOf parsed.name (str ":")
            if !(env.fsFind trimmedBackendName) then
              (Except.error (str "backend does not exist: " ++ trimmedBackendName),
               sendMsg (str "INITREMOTE-FAILURE backend does not exist: " ++
                 trimmedBackendName) s)
            else
              (Except.ok (), sendMsg (str "INITREMOTE-SUCCESS") s)

/-- `server.handlePrepare` (gitannex.go line 399). -/
def handlePrepare (s : ServerSt) : Except Str Unit × ServerSt :=
  match queryConfigs s with
  | (Except.error e, s) =>
    (Except.error (str "error getting configs: " ++ e),
     sendMsg (str "PREPARE-FAILURE Error getting configs") s)
  | (Except.ok _, s) => (Except.ok (), sendMsg (str "PREPARE-SUCCESS") s)

/-- `server.handleListConfigs` (gitannex.go line 410). -/
def handleListConfigs (s : ServerSt) : ServerSt :=
  sendMsg (str "CONFIGEND")
    (getRequiredConfigs.foldl
      (fun s c =>
        sendMsg (str "CONFIG " ++ c.getCanonicalName ++ str " " ++
          c.fullDescription) s)
      s)

/-- `server.handleTransfer` (gitannex.go line 417). -/
def handleTransfer (env : Backend) (message : messageParser) (s : ServerSt) :
    Except Str Unit × ServerSt :=
  match message.nextSpaceDelimitedParameter with
  | Except.error e =>
    (Except.error (str "malformed arguments for TRANSFER: " ++ e),
     sendMsg (str "TRANSFER-FAILURE failed to parse direction") s)
  | Except.ok (argMode, message) =>
    match message.nextSpaceDelimitedParameter with
    | Except.error e =>
      (Except.error (str "malformed arguments for TRANSFER: " ++ e),
       sendMsg (str "TRANSFER-FAILURE failed to parse key") s)
    | Except.ok (argKey, message) =>
      let argFile := (message.finalParameter).1
      if argFile = [] then
        (Except.error (str "failed to parse file path"),
         sendMsg (str "TRANSFER-FAILURE failed to parse file path") s)
      else
        match queryConfigs s with
        | (Except.error e, s) =>
          (Except.error (str "error getting configs: " ++ e),
           sendMsg (str "TRANSFER-FAILURE " ++ argMode ++ str " " ++ argKey ++
             str " failed to get configs") s)
        | (Except.ok _, s) =>
          let layout := env.parseLayoutMode s.configRcloneLayout
          if layout = LayoutMode.layoutModeUnknown then
            (Except.error (str "error parsing layout mode: \"" ++
               s.configRcloneLayout ++ str "\""),
             sendMsg (str "TRANSFER-FAILURE " ++ argKey) s)
          else
            match env.buildFsString layout argKey s.configRcloneRemoteName
                s.configPrefixDir with
            | Except.error e =>
              (Except.error (str "error building fs string: " ++ e),
               sendMsg (str "TRANSFER-FAILURE " ++ argKey) s)
            | Except.ok remoteFsString =>
              match env.cacheGet remoteFsString with
              | Except.error e =>
                (Except.error e,
                 sendMsg (str "TRANSFER-FAILURE " ++ argMode ++ str " " ++
                   argKey ++ str " failed to get remote fs") s)
              | Except.ok remoteFs =>
                match env.cacheGet (env.filepathDir argFile) with
                | Except.error e =>
                  (Except.error (str "failed to get local fs: " ++ e),
                   sendMsg (str "TRANSFER-FAILURE " ++ argMode ++ str " " ++
                     argKey ++ str " failed to get local fs") s)
                | Except.ok localFs =>
                  let remoteFileName := argKey
                  let localFileName := env.filepathBase argFile
                  if argMode = str "STORE" then
                    match env.copyFile remoteFs localFs remoteFileName
                        localFileName with
                    | CopyResult.ok =>
                      (Except.ok (),
                       sendMsg (str "TRANSFER-SUCCESS " ++ argMode ++ str " " ++
                         argKey) s)
                    | r =>
                      (Except.error r.errText,
                       sendMsg (str "TRANSFER-FAILURE " ++ argMode ++ str " " ++
                         argKey ++ str " failed to copy file: " ++ r.errText) s)
                  else if argMode = str "RETRIEVE" then
                    match env.copyFile localFs remoteFs localFileName
                        remoteFileName with
                    | CopyResult.errObjectNotFound =>
                      (Except.ok (),
                       sendMsg (str "TRANSFER-FAILURE " ++ argMode ++ str " " ++
                         argKey ++ str " not found") s)
                    | CopyResult.errOther e =>
                      (Except.error e,
                       sendMsg (str "TRANSFER-FAILURE " ++ argMode ++ str " " ++
                         argKey ++ str " failed to copy file: " ++ e) s)
                    | CopyResult.ok =>
                      (Except.ok (),
                       sendMsg (str "TRANSFER-SUCCESS " ++ argMode ++ str " " ++
                         argKey) s)
                  else
                    (Except.error (str "received malformed TRANSFER mode: " ++
                       argMode),
                     sendMsg (str "TRANSFER-FAILURE " ++ argMode ++ str " " ++
                       argKey ++ str " unrecognized mode") s)

/-- `server.handleCheckPresent` (gitannex.go line 497). -/
def handleCheckPresent (env : Backend) (message : messageParser)
    (s : ServerSt) : Except Str Unit × ServerSt :=
  let argKey := (message.finalParameter).1
  if argKey = [] then
    (Except.error (str "failed to parse response for CHECKPRESENT"), s)
  else
    match queryConfigs s with
    | (Except.error e, s) =>
      (Except.error (str "error getting configs: " ++ e),
       sendMsg (str "CHECKPRESENT-FAILURE " ++ argKey ++
         str " failed to get configs") s)
    | (Except.ok _, s) =>
      let layout := env.parseLayoutMode s.configRcloneLayout
      if layout = LayoutMode.layoutModeUnknown then
        (Except.error (str "error parsing layout mode: \"" ++
           s.configRcloneLayout ++ str "\""),
         sendMsg (str "CHECKPRESENT-FAILURE " ++ argKey) s)
      else
        match env.buildFsString layout argKey s.configRcloneRemoteName
            s.configPrefixDir with
        | Except.error e =>
          (Except.error (str "error building fs string: " ++ e),
           sendMsg (str "CHECKPRESENT-FAILURE " ++ argKey) s)
        | Except.ok remoteFsString =>
          match env.cacheGet remoteFsString with
          | Except.error e =>
            (Except.error e,
             sendMsg (str "CHECKPRESENT-UNKNOWN " ++ argKey ++
               str " failed to get remote fs") s)
          | Except.ok remoteFs =>
            match env.newObject remoteFs argKey with
            | NewObjectResult.errObjectNotFound =>
              (Except.ok (), sendMsg (str "CHECKPRESENT-FAILURE " ++ argKey) s)
            | NewObjectResult.errOther e =>
              (Except.error e,
               sendMsg (str "CHECKPRESENT-UNKNOWN " ++ argKey ++
                 str " error finding file") s)
            | NewObjectResult.ok _ =>
              (Except.ok (), sendMsg (str "CHECKPRESENT-SUCCESS " ++ argKey) s)

/-- `server.handleRemove` (gitannex.go line 560).  Note that unlike
INITREMOTE, PREPARE, TRANSFER and CHECKPRESENT this handler never calls
`queryConfigs`. -/
def handleRemove (env : Backend) (message : messageParser) (s : ServerSt) :
    Except Str Unit × ServerSt :=
  let argKey := (message.finalParameter).1
  if argKey = [] then
    (Except.error (str "failed to parse key for REMOVE"), s)
  else
    let layout := env.parseLayoutMode s.configRcloneLayout
    if layout = LayoutMode.layoutModeUnknown then
      (Except.error (str "error parsing layout mode: \"" ++
         s.configRcloneLayout ++ str "\""),
       sendMsg (str "REMOVE-FAILURE " ++ argKey) s)
    else
      match env.buildFsString layout argKey s.configRcloneRemoteName
          s.configPrefixDir with
      | Except.error e =>
        (Except.error (str "error building fs string: " ++ e),
         sendMsg (str "REMOVE-FAILURE " ++ argKey) s)
      | Except.ok remoteFsString =>
        match env.cacheGet remoteFsString with
        | Except.error e =>
          (Except.error (str "error getting remote fs: " ++ e),
           sendMsg (str "REMOVE-FAILURE " ++ argKey) s)
        | Except.ok remoteFs =>
          match env.newObject remoteFs argKey with
          | NewObjectResult.errObjectNotFound =>
            (Except.ok (), sendMsg (str "REMOVE-SUCCESS " ++ argKey) s)
          | NewObjectResult.errOther e =>
            (Except.error (str "error getting new fs object: " ++ e),
             sendMsg (str "REMOVE-FAILURE " ++ argKey ++
               str " error getting new fs object: " ++ e) s)
          | NewObjectResult.ok fileObj =>
            match env.deleteFile fileObj with
            | some _ =>
              (Except.error (str "error deleting file: \"" ++ argKey ++ str "\""),
               sendMsg (str "REMOVE-FAILURE " ++ argKey ++
                 str " error deleting file") s)
            | none =>
              (Except.ok (), sendMsg (str "REMOVE-SUCCESS " ++ argKey) s)

/-- The switch body of `server.handleExtensions` (gitannex.go line 609):
record a recognized extension name, silently ignoring unknown names. -/
def applyExtension (ext : Str) (s : ServerSt) : ServerSt :=
  if ext = str "INFO" then { s with extensionInfo := true }
  else if ext = str "ASYNC" then { s with extensionAsync := true }
  else if ext = str "GETGITREMOTENAME" then
    { s with extensionGetGitRemoteName := true }
  else if ext = str "UNAVAILABLERESPONSE" then
    { s with extensionUnavailableResponse := true }
  else s

/-- The token loop of `server.handleExtensions` (gitannex.go line 604),
running until the parser is exhausted.  The fuel argument bounds iterations;
each successful parse strictly shrinks the line, so `line.length + 1` always
suffices. -/
def extLoop : Nat → messageParser → ServerSt → ServerSt
  | 0, _, s => s
  | fuel + 1, message, s =>
    match message.nextSpaceDelimitedParameter with
    | Except.error _ => s
    | Except.ok (extension, message) =>
      extLoop fuel message (applyExtension extension s)

/-- `server.handleExtensions` (gitannex.go line 603). -/
def handleExtensions (message : messageParser) (s : ServerSt) :
    Except Str Unit × ServerSt :=
  (Except.ok (),
   sendMsg (str "EXTENSIONS") (extLoop (message.line.length + 1) message s))

/-- The switch statement of `server.run` (gitannex.go lines 213-256):
dispatch on the first token of a message. -/
def dispatch (env : Backend) (command : Str) (message : messageParser)
    (s : ServerSt) : Except Str Unit × ServerSt :=
  if command = str "INITREMOTE" then handleInitRemote env s
  else if command = str "PREPARE" then handlePrepare s
  else if command = str "EXPORTSUPPORTED" then
    (Except.ok (), sendMsg (str "EXPORTSUPPORTED-FAILURE") s)
  else if command = str "TRANSFER" then handleTransfer env message s
  else if command = str "CHECKPRESENT" then handleCheckPresent env message s
  else if command = str "REMOVE" then handleRemove env message s
  else if command = str "ERROR" then
    (Except.error (str "received error message from git-annex: " ++
       (message.finalParameter).1), s)
  else if command = str "EXTENSIONS" then handleExtensions message s
  else if command = str "LISTCONFIGS" then (Except.ok (), handleListConfigs s)
  else if command = str "GETCOST" then
    (Except.ok (), sendMsg (str "COST 200") s)
  else if command = str "GETAVAILABILITY" then
    (Except.ok (), sendMsg (str "AVAILABILITY GLOBAL") s)
  else if command = str "CLAIMURL" ∨ command = str "CHECKURL" ∨
      command = str "WHEREIS" ∨ command = str "GETINFO" then
    (Except.ok (), sendMsg (str "UNSUPPORTED-REQUEST") s)
  else
    (Except.error (str "received unexpected message from git-annex: " ++
       message.line), s)

/-- The command loop of `server.run` (gitannex.go lines 198-260).  A read
yielding a nil message breaks the loop cleanly; a read error or a handler
error terminates the session abnormally.  The fuel argument bounds loop
iterations; each iteration consumes at least the command line from the
inbound stream, so any fuel exceeding the stream length is sufficient. -/
def runLoop (env : Backend) : Nat → ServerSt → Except Str Unit × ServerSt
  | 0, s => (Except.error (str "model fuel exhausted"), s)
  | fuel + 1, s =>
    match getMsgM s with
    | (Except.error e, s) =>
      (Except.error (str "error receiving message: " ++ e), s)
    | (Except.ok none, s) => (Except.ok (), s)
    | (Except.ok (some message), s) =>
      match message.nextSpaceDelimitedParameter with
      | Except.error _ => (Except.error (str "failed to parse command"), s)
      | Except.ok (command, message) =>
        match dispatch env command message s with
        | (Except.error e, s) => (Except.error e, s)
        | (Except.ok _, s) => runLoop env fuel s

/-- `server.run` (gitannex.go line 194): announce the protocol version, then
run the command loop. -/
def run (env : Backend) (fuel : Nat) (s : ServerSt) :
    Except Str Unit × ServerSt :=
  runLoop env fuel (sendMsg (str "VERSION 1") s)

/-- Does `needle` occur as a contiguous substring of `hay`?  Used to state
which identifying tokens a response line carries. -/
def strHas (hay needle : Str) : Bool :=
  match hay with
  | [] => needle = ([] : Str)
  | _ :: t => List.isPrefixOf needle hay || strHas t needle

/-- A fresh session state: empty streams, all flags clear, all config fields
empty, exactly as `server` is zero-initialized at process start. -/
def sBase : ServerSt :=
  ⟨[], [], false, false, false, false, false, [], [], []⟩

/-- A session whose configs already resolved: `configsDone` is set and the
three config fields hold the values of a typical negotiation. -/
def sReady : ServerSt :=
  ⟨[], [], false, false, false, false, true,
   str "git-annex-rclone", str "myremote", str "nodir"⟩

/-- Like `sReady` but with a layout string no layout mode parses. -/
def sBogusLayout : ServerSt :=
  { sReady with configRcloneLayout := str "bogus" }

/-- A session whose controller answers each of the three GETCONFIG queries
with a non-empty VALUE reply. -/
def sNegotiate : ServerSt :=
  { sBase with inbound := [ReadOutcome.line (str "VALUE myremote\n"),
                           ReadOutcome.line (str "VALUE dir\n"),
                           ReadOutcome.line (str "VALUE nodir\n")] }

/-- The session `sNegotiate` after `queryConfigs` ran: three GETCONFIG
queries sent, all replies consumed, fields populated, flag set. -/
def sNegotiated : ServerSt :=
  ⟨[], [str "GETCONFIG rcloneremotename", str "GETCONFIG rcloneprefix",
        str "GETCONFIG rclonelayout"],
   false, false, false, false, true, str "dir", str "myremote", str "nodir"⟩

/-- A session whose controller answers the first GETCONFIG with a value and
then violates the VALUE protocol, so config resolution fails midway. -/
def sC10 : ServerSt :=
  { sBase with inbound := [ReadOutcome.line (str "VALUE myremote\n"),
                           ReadOutcome.line (str "NOTVALUE x\n")] }

/-- A session whose inbound stream ends cleanly at once. -/
def sEof : ServerSt := { sBase with inbound := [ReadOutcome.eofRead] }

/-- A session whose first read fails leaving a partial line. -/
def sIncomplete : ServerSt :=
  { sBase with inbound := [ReadOutcome.errIncomplete (str "EXTEN")] }

/-- A benign collaborator environment: the layout parses, locator
construction and handle resolution succeed, lookups find an object, copies
and deletions succeed. -/
def envOk : Backend :=
  ⟨fun _ => LayoutMode.mode (str "nodir"),
   fun _ _ _ _ => Except.ok (str "myremote:git-annex-rclone"),
   fun _ => Except.ok ⟨0⟩,
   fun _ _ => NewObjectResult.ok ⟨0⟩,
   fun _ => none,
   fun _ _ _ _ => CopyResult.ok,
   [str "myremote"],
   fun _ => Except.ok ⟨str ":local", []⟩,
   fun _ => true,
   fun _ => str "/tmp",
   fun _ => str "f"⟩

/-- Like `envOk` but no layout string parses. -/
def envUnknownLayout : Backend :=
  { envOk with parseLayoutMode := fun _ => LayoutMode.layoutModeUnknown }

/-- Like `envOk` but object lookups report `fs.ErrorObjectNotFound`. -/
def envAbsent : Backend :=
  { envOk with newObject := fun _ _ => NewObjectResult.errObjectNotFound }

/-- Like `envOk` but object lookups fail with a backend error. -/
def envLookupErr : Backend :=
  { envOk with newObject := fun _ _ => NewObjectResult.errOther (str "boom") }

/-- Like `envOk` but copies report `fs.ErrorObjectNotFound`. -/
def envCopyAbsent : Backend :=
  { envOk with copyFile := fun _ _ _ _ => CopyResult.errObjectNotFound }

/-- A controller reply line `VALUE <v>` as read from the stream. -/
def valueLine (v : Str) : ReadOutcome :=
  ReadOutcome.line (str "VALUE " ++ v ++ str "\n")

/-- The query `queryConfigs` sends for one config name. -/
def getconfigMsg (n : Str) : Str := str "GETCONFIG " ++ n

/-- A config definition with a synonym and no default, like the remote-name
config. -/
def cNoDefault : configDefinition :=
  ⟨[str "remotename", str "target"], [], ConfigField.rcloneRemoteName, none⟩

/-- A config definition with a synonym and a default, like the prefix
config. -/
def cWithDefault : configDefinition :=
  ⟨[str "rcloneprefix", str "prefix"], [], ConfigField.prefixDir,
   some (str "git-annex-rclone")⟩

/-- A space-delimited word as the tokenizer sees it: nonempty, containing
neither the separator nor a line terminator. -/
def goodWord (w : Str) : Prop :=
  w ≠ [] ∧ ∀ c ∈ w, c ≠ ' ' ∧ isCRLF c = false

instance (w : Str) : Decidable (goodWord w) := by
  unfold goodWord; infer_instance

theorem trimRightRN_of_no_crlf (w : Str) (h : ∀ c ∈ w, isCRLF c = false) :
    trimRightRN w = w := by
  induction w with
  | nil => rfl
  | cons c cs ih =>
    have hc : isCRLF c = false := h c (List.mem_cons_self c cs)
    have ih' := ih (fun x hx => h x (List.mem_cons_of_mem c hx))
    simp only [trimRightRN]
    rw [ih']
    cases cs with
    | nil => simp [hc]
    | cons d ds => rfl

theorem trimRightRN_append_right (v : Str) (hv : trimRightRN v = v)
    (hne : v ≠ []) (x : Str) : trimRightRN (x ++ v) = x ++ v := by
  induction x with
  | nil => simpa using hv
  | cons c x' ih =>
    simp only [List.cons_append, trimRightRN, List.append_eq]
    rw [ih]
    have hxv : x' ++ v ≠ [] := by simp [hne]
    cases hx : x' ++ v with
    | nil => exact absurd hx hxv
    | cons d ds => rfl

/-- Trimming leaves a line alone when it ends in a good word. -/
theorem trimRightRN_ends_good (x c : Str) (hc : goodWord c) :
    trimRightRN (x ++ c) = x ++ c :=
  trimRightRN_append_right c
    (trimRightRN_of_no_crlf c (fun ch hch => (hc.2 ch hch).2)) hc.1 x

theorem cutSpace_append (w : Str) (hw : ∀ ch ∈ w, ch ≠ ' ') (r : Str) :
    cutSpace (w ++ ' ' :: r) = some (w, r) := by
  induction w with
  | nil => simp [cutSpace]
  | cons c cs ih =>
    have hc : c ≠ ' ' := (hw c (List.mem_cons_self c cs))
    simp only [List.cons_append, cutSpace, List.append_eq]
    rw [if_neg hc, ih (fun ch hch => hw ch (List.mem_cons_of_mem c hch))]

theorem cutSpace_none (w : Str) (hw : ∀ ch ∈ w, ch ≠ ' ') :
    cutSpace w = none := by
  induction w with
  | nil => rfl
  | cons c cs ih =>
    have hc : c ≠ ' ' := (hw c (List.mem_cons_self c cs))
    simp only [cutSpace]
    rw [if_neg hc, ih (fun ch hch => hw ch (List.mem_cons_of_mem c hch))]

/-- One tokenizer step on a line `word ++ " " ++ rest` whose tail needs no
trimming: the word is returned and the cursor advances past the space. -/
theorem nextParam_cons_word (a rest : Str) (ha : goodWord a)
    (hrest : trimRightRN rest = rest) (hrne : rest ≠ []) :
    messageParser.nextSpaceDelimitedParameter ⟨a ++ ' ' :: rest⟩ =
      Except.ok (a, ⟨rest⟩) := by
  have htrim : trimRightRN (a ++ ' ' :: rest) = a ++ ' ' :: rest := by
    have := trimRightRN_append_right rest hrest hrne (a ++ [' '])
    simpa using this
  have hne : a ++ ' ' :: rest ≠ [] := by simp
  simp only [messageParser.nextSpaceDelimitedParameter, htrim]
  rw [if_neg hne, cutSpace_append a (fun ch hch => (ha.2 ch hch).1) rest]
  simp [ha.1]

/-- One tokenizer step on a line holding a single word: the word is returned
and the line is left empty. -/
theorem nextParam_last_word (c : Str) (hc : goodWord c) :
    messageParser.nextSpaceDelimitedParameter ⟨c⟩ = Except.ok (c, ⟨[]⟩) := by
  have htrim : trimRightRN c = c :=
    trimRightRN_of_no_crlf c (fun ch hch => (hc.2 ch hch).2)
  simp only [messageParser.nextSpaceDelimitedParameter, htrim]
  rw [if_neg hc.1, cutSpace_none c (fun ch hch => (hc.2 ch hch).1)]

/-- C1, counterexample: on the line `a b c` the third successive call to
`nextSpaceDelimitedParameter` returns the token `c`, not the exhausted
condition; exhaustion only arises on the fourth call. -/
theorem tokenizer_third_call_not_exhausted :
    messageParser.nextSpaceDelimitedParameter ⟨str "a b c"⟩ =
      Except.ok (str "a", ⟨str "b c"⟩) ∧
    messageParser.nextSpaceDelimitedParameter ⟨str "b c"⟩ =
      Except.ok (str "b", ⟨str "c"⟩) ∧
    messageParser.nextSpaceDelimitedParameter ⟨str "c"⟩ =
      Except.ok (str "c", ⟨str ""⟩) ∧
    (messageParser.nextSpaceDelimitedParameter ⟨str "c"⟩).isOk = true :=
  ⟨rfl, rfl, rfl, rfl⟩

/-- C1, amended: for space-delimited words `a b c d`, successive calls to
`nextSpaceDelimitedParameter` on the line `a b c` yield `a`, `b` and `c`, and
a fourth call yields the exhausted condition; on the line `a b c d`, two such
calls followed by `finalParameter` yield `a`, `b` and `c d`. -/
theorem tokenizer_word_sequence (a b c d : Str) (ha : goodWord a)
    (hb : goodWord b) (hc : goodWord c) (hd : goodWord d) :
    messageParser.nextSpaceDelimitedParameter ⟨a ++ ' ' :: (b ++ ' ' :: c)⟩ =
      Except.ok (a, ⟨b ++ ' ' :: c⟩) ∧
    messageParser.nextSpaceDelimitedParameter ⟨b ++ ' ' :: c⟩ =
      Except.ok (b, ⟨c⟩) ∧
    messageParser.nextSpaceDelimitedParameter ⟨c⟩ = Except.ok (c, ⟨[]⟩) ∧
    messageParser.nextSpaceDelimitedParameter ⟨[]⟩ =
      Except.error (str "nothing remains to parse") ∧
    messageParser.nextSpaceDelimitedParameter
        ⟨a ++ ' ' :: (b ++ ' ' :: (c ++ ' ' :: d))⟩ =
      Except.ok (a, ⟨b ++ ' ' :: (c ++ ' ' :: d)⟩) ∧
    messageParser.nextSpaceDelimitedParameter ⟨b ++ ' ' :: (c ++ ' ' :: d)⟩ =
      Except.ok (b, ⟨c ++ ' ' :: d⟩) ∧
    messageParser.finalParameter ⟨c ++ ' ' :: d⟩ = (c ++ ' ' :: d, ⟨[]⟩) := by
  have htrimc : trimRightRN (b ++ ' ' :: c) = b ++ ' ' :: c := by
    have := trimRightRN_ends_good (b ++ [' ']) c hc
    simpa using this
  have htrimcd : trimRightRN (c ++ ' ' :: d) = c ++ ' ' :: d := by
    have := trimRightRN_ends_good (c ++ [' ']) d hd
    simpa using this
  have htrimbcd : trimRightRN (b ++ ' ' :: (c ++ ' ' :: d)) =
      b ++ ' ' :: (c ++ ' ' :: d) := by
    have := trimRightRN_ends_good (b ++ ' ' :: (c ++ [' '])) d hd
    simpa using this
  refine ⟨?_, ?_, ?_, rfl, ?_, ?_, ?_⟩
  · exact nextParam_cons_word a (b ++ ' ' :: c) ha htrimc (by simp)
  · exact nextParam_cons_word b c hb
      (trimRightRN_of_no_crlf c (fun ch hch => (hc.2 ch hch).2)) hc.1
  · exact nextParam_last_word c hc
  · exact nextParam_cons_word a (b ++ ' ' :: (c ++ ' ' :: d)) ha htrimbcd
      (by simp)
  · exact nextParam_cons_word b (c ++ ' ' :: d) hb htrimcd (by simp)
  · simp only [messageParser.finalParameter, htrimcd]

/-- Witness for `tokenizer_word_sequence` at the words
`alpha beta gamma delta`. -/
theorem tokenizer_word_sequence_witness :
    messageParser.nextSpaceDelimitedParameter ⟨str "alpha beta gamma"⟩ =
      Except.ok (str "alpha", ⟨str "beta gamma"⟩) ∧
    messageParser.nextSpaceDelimitedParameter ⟨str "beta gamma"⟩ =
      Except.ok (str "beta", ⟨str "gamma"⟩) ∧
    messageParser.nextSpaceDelimitedParameter ⟨str "gamma"⟩ =
      Except.ok (str "gamma", ⟨[]⟩) ∧
    messageParser.nextSpaceDelimitedParameter ⟨[]⟩ =
      Except.error (str "nothing remains to parse") ∧
    messageParser.nextSpaceDelimitedParameter ⟨str "alpha beta gamma delta"⟩ =
      Except.ok (str "alpha", ⟨str "beta gamma delta"⟩) ∧
    messageParser.nextSpaceDelimitedParameter ⟨str "beta gamma delta"⟩ =
      Except.ok (str "beta", ⟨str "gamma delta"⟩) ∧
    messageParser.finalParameter ⟨str "gamma delta"⟩ =
      (str "gamma delta", ⟨[]⟩) := by
  have h := tokenizer_word_sequence (str "alpha") (str "beta") (str "gamma")
    (str "delta") (by decide) (by decide) (by decide) (by decide)
  simpa using h

theorem getMsgM_configsDone (s : ServerSt) :
    ((getMsgM s).2).configsDone = s.configsDone := by
  unfold getMsgM
  split
  · rfl
  · split <;> rfl

theorem setField_configsDone (f : ConfigField) (v : Str) (s : ServerSt) :
    (setField f v s).configsDone = s.configsDone := by
  cases f <;> rfl

theorem tryNames_configsDone (ns : List Str) (dest : ConfigField) :
    ∀ s : ServerSt, ((tryNames ns dest s).2).configsDone = s.configsDone := by
  induction ns with
  | nil => intro s; rfl
  | cons n rest ih =>
    intro s
    have frame : ∀ {r : Except Str (Option messageParser)} {s₁ : ServerSt},
        getMsgM (sendMsg (str "GETCONFIG " ++ n) s) = (r, s₁) →
        s₁.configsDone = s.configsDone := by
      intro r s₁ h
      have hg := getMsgM_configsDone (sendMsg (str "GETCONFIG " ++ n) s)
      rw [h] at hg
      exact hg
    simp only [tryNames]
    split
    · next _ _ h => exact frame h
    · next _ h => exact frame h
    · next msg s₁ h =>
      have hs₁ : s₁.configsDone = s.configsDone := frame h
      split
      · exact hs₁
      · next kw msg2 _ =>
        split
        · exact hs₁
        · split
          · rw [setField_configsDone]; exact hs₁
          · rw [ih s₁]; exact hs₁

theorem resolveOne_configsDone (c : configDefinition) (s : ServerSt) :
    ((resolveOne c s).2).configsDone = s.configsDone := by
  have frame : ∀ {r : Except Str Bool} {s₁ : ServerSt},
      tryNames c.names c.destination s = (r, s₁) →
      s₁.configsDone = s.configsDone := by
    intro r s₁ h
    have hg := tryNames_configsDone c.names c.destination s
    rw [h] at hg
    exact hg
  simp only [resolveOne]
  split
  · next _ _ h => exact frame h
  · next _ h => exact frame h
  · next s₁ h =>
    split
    · exact frame h
    · rw [setField_configsDone]; exact frame h

theorem resolveAll_configsDone (cs : List configDefinition) :
    ∀ s : ServerSt, ((resolveAll cs s).2).configsDone = s.configsDone := by
  induction cs with
  | nil => intro s; rfl
  | cons c rest ih =>
    intro s
    have frame : ∀ {r : Except Str Unit} {s₁ : ServerSt},
        resolveOne c s = (r, s₁) → s₁.configsDone = s.configsDone := by
      intro r s₁ h
      have hg := resolveOne_configsDone c s
      rw [h] at hg
      exact hg
    simp only [resolveAll]
    split
    · next _ _ h => exact frame h
    · next _ h => rw [ih]; exact frame h

/-- A successful `queryConfigs` always leaves `configsDone` set. -/
theorem queryConfigs_ok_done (s s₁ : ServerSt)
    (h : queryConfigs s = (Except.ok (), s₁)) : s₁.configsDone = true := by
  unfold queryConfigs at h
  by_cases hd : s.configsDone
  · rw [if_pos hd] at h
    cases h
    exact hd
  · rw [if_neg hd] at h
    rcases hres : resolveAll getRequiredConfigs s with ⟨r, s₂⟩
    rw [hres] at h
    cases r with
    | error e => cases h
    | ok _ => cases h; rfl

/-- C2: config resolution is idempotent within a session.  After a successful
invocation of `queryConfigs` the `configsDone` flag is set, so a second
invocation returns successfully with the state — inbound and outbound streams
(hence no GETCONFIG query) and all config fields — completely unchanged. -/
theorem queryConfigs_idempotent (s s₁ : ServerSt)
    (h : queryConfigs s = (Except.ok (), s₁)) :
    queryConfigs s₁ = (Except.ok (), s₁) := by
  have hd := queryConfigs_ok_done s s₁ h
  unfold queryConfigs
  rw [if_pos hd]

/-- Witness for `queryConfigs_idempotent`: a session that resolves all three
configs from one non-empty VALUE reply each, then resolves again as a no-op. -/
theorem queryConfigs_idempotent_witness :
    queryConfigs sNegotiate = (Except.ok (), sNegotiated) ∧
    queryConfigs sNegotiated = (Except.ok (), sNegotiated) := by
  refine ⟨by rfl, ?_⟩
  exact queryConfigs_idempotent sNegotiate sNegotiated (by rfl)

/-- C10: the `configsDone` flag is set only after every config definition has
resolved; whenever `queryConfigs` returns an error the flag remains `false`,
so a later invocation re-runs `resolveAll` over all of `getRequiredConfigs`
from the beginning. -/
theorem queryConfigs_error_leaves_flag_unset (s : ServerSt) (e : Str)
    (s' : ServerSt) (h : queryConfigs s = (Except.error e, s')) :
    s'.configsDone = false := by
  unfold queryConfigs at h
  by_cases hd : s.configsDone
  · rw [if_pos hd] at h
    cases h
  · rw [if_neg hd] at h
    rcases hres : resolveAll getRequiredConfigs s with ⟨r, s₂⟩
    rw [hres] at h
    cases r with
    | error e₂ =>
      cases h
      have hg := resolveAll_configsDone getRequiredConfigs s
      rw [hres] at hg
      rw [hg]
      exact Bool.eq_false_iff.mpr hd
    | ok _ => cases h

/-- Witness for `queryConfigs_error_leaves_flag_unset`: in session `sC10` the
first definition resolves (the remote-name field is written) and the second
fails on a non-VALUE reply; the flag stays `false` while the field keeps the
already-written value. -/
theorem queryConfigs_error_leaves_flag_unset_witness :
    (queryConfigs sC10).2.configsDone = false ∧
    (queryConfigs sC10).2.configRcloneRemoteName = str "myremote" := by
  refine ⟨?_, rfl⟩
  exact queryConfigs_error_leaves_flag_unset sC10
    (str "failed to parse config value") ((queryConfigs sC10).2) rfl

theorem trimRightRN_append_nl (xs : Str) :
    trimRightRN (xs ++ ['\n']) = trimRightRN xs := by
  induction xs with
  | nil => rfl
  | cons c cs ih =>
    simp only [List.cons_append, trimRightRN, List.append_eq]
    rw [ih]

/-- Parsing the keyword off a controller reply `VALUE <v>\n` yields `VALUE`
and leaves exactly `v` for `finalParameter`. -/
theorem nextParam_value_line (v : Str) (hv : trimRightRN v = v) :
    messageParser.nextSpaceDelimitedParameter ⟨str "VALUE " ++ v ++ str "\n"⟩ =
      Except.ok (str "VALUE", ⟨v⟩) := by
  have htrim : trimRightRN (str "VALUE " ++ v ++ str "\n") = str "VALUE " ++ v := by
    have h1 : trimRightRN ((str "VALUE " ++ v) ++ ['\n']) =
        trimRightRN (str "VALUE " ++ v) := trimRightRN_append_nl _
    by_cases hne : v = []
    · subst hne
      simpa using h1
    · rw [trimRightRN_append_right v hv hne (str "VALUE ")] at h1
      simpa using h1
  have hsplit : str "VALUE " ++ v = str "VALUE" ++ ' ' :: v := rfl
  have hcut : cutSpace (str "VALUE " ++ v) = some (str "VALUE", v) := by
    rw [hsplit]
    exact cutSpace_append (str "VALUE") (by decide) v
  have hne2 : str "VALUE " ++ v ≠ [] := by simp [str]
  simp only [messageParser.nextSpaceDelimitedParameter, htrim]
  rw [if_neg hne2, hcut]
  simp [str]

/-- One iteration of the name loop in `queryConfigs`: send GETCONFIG, read
the VALUE reply; a non-empty value wins, an empty one moves to the next
name. -/
theorem tryNames_step (n : Str) (ns : List Str) (dest : ConfigField)
    (v : Str) (hv : trimRightRN v = v) (s : ServerSt)
    (rest : List ReadOutcome) (hin : s.inbound = valueLine v :: rest) :
    tryNames (n :: ns) dest s =
      if v ≠ [] then
        (Except.ok true, setField dest v
          { s with inbound := rest, sent := s.sent ++ [getconfigMsg n] })
      else
        tryNames ns dest
          { s with inbound := rest, sent := s.sent ++ [getconfigMsg n] } := by
  have hg : getMsgM (sendMsg (str "GETCONFIG " ++ n) s) =
      (Except.ok (some ⟨str "VALUE " ++ v ++ str "\n"⟩),
       { s with inbound := rest, sent := s.sent ++ [getconfigMsg n] }) := by
    simp [getMsgM, sendMsg, hin, valueLine, getconfigMsg]
  simp only [tryNames]
  rw [hg]
  simp only [nextParam_value_line v hv, messageParser.finalParameter, hv]
  by_cases hvne : v = []
  · subst hvne
    simp
  · simp [hvne, str]

/-- Names answered by empty VALUE replies are consumed in order without
producing a value. -/
theorem tryNames_empties (ns₂ : List Str) (dest : ConfigField) :
    ∀ (ns₁ : List Str) (vs : List Str) (s : ServerSt)
      (rest : List ReadOutcome),
      vs.length = ns₁.length → (∀ v ∈ vs, v = []) →
      s.inbound = vs.map valueLine ++ rest →
      tryNames (ns₁ ++ ns₂) dest s =
        tryNames ns₂ dest
          { s with inbound := rest,
                   sent := s.sent ++ ns₁.map getconfigMsg } := by
  intro ns₁
  induction ns₁ with
  | nil =>
    intro vs s rest hlen hemp hin
    have hvs : vs = [] := List.length_eq_zero.mp (by simpa using hlen)
    subst hvs
    simp only [List.map_nil, List.nil_append] at hin
    have hrec : { s with inbound := rest,
                         sent := s.sent ++ List.map getconfigMsg [] } = s := by
      rw [← hin]; simp
    rw [List.nil_append, hrec]
  | cons n ns₁' ih =>
    intro vs s rest hlen hemp hin
    cases vs with
    | nil => simp at hlen
    | cons v vs' =>
      have hv : v = [] := hemp v (List.mem_cons_self v vs')
      subst hv
      have hin' : s.inbound = valueLine [] :: (vs'.map valueLine ++ rest) := by
        simpa using hin
      rw [List.cons_append,
        tryNames_step n (ns₁' ++ ns₂) dest [] rfl s
          (vs'.map valueLine ++ rest) hin']
      simp only [ne_eq, not_true_eq_false, if_false]
      rw [ih vs' _ rest (by simpa using hlen)
        (fun x hx => hemp x (List.mem_cons_of_mem _ hx)) (by simp)]
      congr 1
      simp

/-- The first name answered by a non-empty VALUE reply wins: the value is
written to the destination field and the remaining names are not queried. -/
theorem tryNames_wins (ns₁ : List Str) (n : Str) (ns₂ : List Str)
    (vs : List Str) (dest : ConfigField) (v : Str) (s : ServerSt)
    (rest : List ReadOutcome) (hlen : vs.length = ns₁.length)
    (hemp : ∀ x ∈ vs, x = []) (hv : trimRightRN v = v) (hvne : v ≠ [])
    (hin : s.inbound = vs.map valueLine ++ (valueLine v :: rest)) :
    tryNames (ns₁ ++ n :: ns₂) dest s =
      (Except.ok true, setField dest v
        { s with inbound := rest,
                 sent := s.sent ++ (ns₁ ++ [n]).map getconfigMsg }) := by
  rw [tryNames_empties (n :: ns₂) dest ns₁ vs s (valueLine v :: rest) hlen
    hemp hin]
  rw [tryNames_step n ns₂ dest v hv _ rest (by simp)]
  rw [if_pos hvne]
  congr 2
  simp

/-- C3: for every config definition, `queryConfigs` (through its
per-definition body `resolveOne`) tries each accepted name in order starting
with the canonical name; the first name whose VALUE reply carries a non-empty
final token wins and the remaining names are skipped; if every name yields an
empty value and a default exists, the default is stored; if every name yields
empty and there is no default, resolution fails with an error naming the
canonical config name. -/
theorem queryConfigs_synonym_fallback :
    (∀ (c : configDefinition) (ns₁ : List Str) (n : Str) (ns₂ : List Str)
       (vs : List Str) (v : Str) (s : ServerSt) (rest : List ReadOutcome),
       c.names = ns₁ ++ n :: ns₂ → vs.length = ns₁.length →
       (∀ x ∈ vs, x = []) → trimRightRN v = v → v ≠ [] →
       s.inbound = vs.map valueLine ++ (valueLine v :: rest) →
       resolveOne c s =
         (Except.ok (), setField c.destination v
           { s with inbound := rest,
                    sent := s.sent ++ (ns₁ ++ [n]).map getconfigMsg })) ∧
    (∀ (c : configDefinition) (vs : List Str) (d : Str) (s : ServerSt)
       (rest : List ReadOutcome),
       c.defaultValue = some d → vs.length = c.names.length →
       (∀ x ∈ vs, x = []) → s.inbound = vs.map valueLine ++ rest →
       resolveOne c s =
         (Except.ok (), setField c.destination d
           { s with inbound := rest,
                    sent := s.sent ++ c.names.map getconfigMsg })) ∧
    (∀ (c : configDefinition) (vs : List Str) (s : ServerSt)
       (rest : List ReadOutcome),
       c.defaultValue = none → vs.length = c.names.length →
       (∀ x ∈ vs, x = []) → s.inbound = vs.map valueLine ++ rest →
       resolveOne c s =
         (Except.error
            (str "did not receive a non-empty config value for \"" ++
              c.getCanonicalName ++ str "\""),
          { s with inbound := rest,
                   sent := s.sent ++ c.names.map getconfigMsg })) := by
  refine ⟨?_, ?_, ?_⟩
  · intro c ns₁ n ns₂ vs v s rest hnames hlen hemp hv hvne hin
    simp only [resolveOne, hnames]
    rw [tryNames_wins ns₁ n ns₂ vs c.destination v s rest hlen hemp hv hvne
      hin]
  · intro c vs d s rest hd hlen hemp hin
    have h := tryNames_empties [] c.destination c.names vs s rest
      (by simpa using hlen) hemp hin
    rw [List.append_nil] at h
    simp only [resolveOne]
    rw [h]
    simp only [tryNames, hd]
  · intro c vs s rest hd hlen hemp hin
    have h := tryNames_empties [] c.destination c.names vs s rest
      (by simpa using hlen) hemp hin
    rw [List.append_nil] at h
    simp only [resolveOne]
    rw [h]
    simp only [tryNames, hd]

/-- Witness for `queryConfigs_synonym_fallback`: the canonical name answers
empty and the synonym answers `syn` (the synonym wins); both names answer
empty with a default (the default is stored); both names answer empty with no
default (resolution fails naming the canonical name). -/
theorem queryConfigs_synonym_fallback_witness :
    resolveOne cNoDefault
        { sBase with inbound := [valueLine [], valueLine (str "syn")] } =
      (Except.ok (), setField cNoDefault.destination (str "syn")
        { { sBase with inbound := [valueLine [], valueLine (str "syn")] } with
            inbound := [],
            sent := [] ++ ([str "remotename"] ++ [str "target"]).map getconfigMsg }) ∧
    resolveOne cWithDefault
        { sBase with inbound := [valueLine [], valueLine []] } =
      (Except.ok (), setField cWithDefault.destination (str "git-annex-rclone")
        { { sBase with inbound := [valueLine [], valueLine []] } with
            inbound := [],
            sent := [] ++ cWithDefault.names.map getconfigMsg }) ∧
    resolveOne cNoDefault
        { sBase with inbound := [valueLine [], valueLine []] } =
      (Except.error
         (str "did not receive a non-empty config value for \"" ++
           cNoDefault.getCanonicalName ++ str "\""),
       { { sBase with inbound := [valueLine [], valueLine []] } with
           inbound := [],
           sent := [] ++ cNoDefault.names.map getconfigMsg }) := by
  refine ⟨?_, ?_, ?_⟩
  · exact queryConfigs_synonym_fallback.1 cNoDefault [str "remotename"]
      (str "target") [] [[]] (str "syn") _ [] rfl rfl (by simp) (by decide)
      (by decide) rfl
  · exact queryConfigs_synonym_fallback.2.1 cWithDefault [[], []]
      (str "git-annex-rclone") _ [] rfl rfl (by simp) rfl
  · exact queryConfigs_synonym_fallback.2.2 cNoDefault [[], []] _ [] rfl rfl
      (by simp) rfl

/-- C4: for any key, CHECKPRESENT distinguishes exactly three lookup
outcomes: a successful lookup emits `CHECKPRESENT-SUCCESS <key>` with no
error; an object-not-found lookup emits `CHECKPRESENT-FAILURE <key>` with no
error; any other lookup error emits `CHECKPRESENT-UNKNOWN <key>` and returns
an error. -/
theorem handleCheckPresent_trichotomy (env : Backend)
    (message : messageParser) (s s₁ : ServerSt) (key fss lm : Str) (rfs : Fs)
    (hkey : (message.finalParameter).1 = key) (hne : key ≠ [])
    (hq : queryConfigs s = (Except.ok (), s₁))
    (hlm : env.parseLayoutMode s₁.configRcloneLayout = LayoutMode.mode lm)
    (hbuild : env.buildFsString (LayoutMode.mode lm) key
      s₁.configRcloneRemoteName s₁.configPrefixDir = Except.ok fss)
    (hget : env.cacheGet fss = Except.ok rfs) :
    (∀ obj, env.newObject rfs key = NewObjectResult.ok obj →
       handleCheckPresent env message s =
         (Except.ok (), sendMsg (str "CHECKPRESENT-SUCCESS " ++ key) s₁)) ∧
    (env.newObject rfs key = NewObjectResult.errObjectNotFound →
       handleCheckPresent env message s =
         (Except.ok (), sendMsg (str "CHECKPRESENT-FAILURE " ++ key) s₁)) ∧
    (∀ e, env.newObject rfs key = NewObjectResult.errOther e →
       handleCheckPresent env message s =
         (Except.error e,
          sendMsg (str "CHECKPRESENT-UNKNOWN " ++ key ++
            str " error finding file") s₁)) := by
  have hbody : ∀ r : NewObjectResult, env.newObject rfs key = r →
      handleCheckPresent env message s =
        (match r with
         | NewObjectResult.errObjectNotFound =>
           (Except.ok (), sendMsg (str "CHECKPRESENT-FAILURE " ++ key) s₁)
         | NewObjectResult.errOther e =>
           (Except.error e,
            sendMsg (str "CHECKPRESENT-UNKNOWN " ++ key ++
              str " error finding file") s₁)
         | NewObjectResult.ok _ =>
           (Except.ok (), sendMsg (str "CHECKPRESENT-SUCCESS " ++ key) s₁)) := by
    intro r hr
    simp only [handleCheckPresent, hkey]
    rw [if_neg hne, hq]
    simp only [hlm]
    rw [if_neg (by intro hcon; exact LayoutMode.noConfusion hcon)]
    simp only [hbuild, hget, hr]
  refine ⟨?_, ?_, ?_⟩
  · intro obj hobj
    simpa using hbody (NewObjectResult.ok obj) hobj
  · intro hobj
    simpa using hbody NewObjectResult.errObjectNotFound hobj
  · intro e hobj
    simpa using hbody (NewObjectResult.errOther e) hobj

/-- Witness for `handleCheckPresent_trichotomy` in a ready session with key
`KEY`, exercising the present, absent and backend-error outcomes. -/
theorem handleCheckPresent_trichotomy_witness :
    handleCheckPresent envOk ⟨str "KEY\n"⟩ sReady =
      (Except.ok (), sendMsg (str "CHECKPRESENT-SUCCESS " ++ str "KEY") sReady) ∧
    handleCheckPresent envAbsent ⟨str "KEY\n"⟩ sReady =
      (Except.ok (), sendMsg (str "CHECKPRESENT-FAILURE " ++ str "KEY") sReady) ∧
    handleCheckPresent envLookupErr ⟨str "KEY\n"⟩ sReady =
      (Except.error (str "boom"),
       sendMsg (str "CHECKPRESENT-UNKNOWN " ++ str "KEY" ++
         str " error finding file") sReady) := by
  refine ⟨?_, ?_, ?_⟩
  · exact (handleCheckPresent_trichotomy envOk ⟨str "KEY\n"⟩ sReady sReady
      (str "KEY") (str "myremote:git-annex-rclone") (str "nodir") ⟨0⟩ rfl
      (by decide) rfl rfl rfl rfl).1 ⟨0⟩ rfl
  · exact (handleCheckPresent_trichotomy envAbsent ⟨str "KEY\n"⟩ sReady sReady
      (str "KEY") (str "myremote:git-annex-rclone") (str "nodir") ⟨0⟩ rfl
      (by decide) rfl rfl rfl rfl).2.1 rfl
  · exact (handleCheckPresent_trichotomy envLookupErr ⟨str "KEY\n"⟩ sReady
      sReady (str "KEY") (str "myremote:git-annex-rclone") (str "nodir") ⟨0⟩
      rfl (by decide) rfl rfl rfl rfl).2.2 (str "boom") rfl

/-- C5: REMOVE is idempotent with respect to absence: an object-not-found
lookup emits `REMOVE-SUCCESS <key>` with no error; a present object is
deleted and `REMOVE-SUCCESS <key>` emitted; a failed deletion emits
`REMOVE-FAILURE` naming the key and returns an error. -/
theorem handleRemove_outcomes (env : Backend) (message : messageParser)
    (s : ServerSt) (key fss lm : Str) (rfs : Fs)
    (hkey : (message.finalParameter).1 = key) (hne : key ≠ [])
    (hlm : env.parseLayoutMode s.configRcloneLayout = LayoutMode.mode lm)
    (hbuild : env.buildFsString (LayoutMode.mode lm) key
      s.configRcloneRemoteName s.configPrefixDir = Except.ok fss)
    (hget : env.cacheGet fss = Except.ok rfs) :
    (env.newObject rfs key = NewObjectResult.errObjectNotFound →
       handleRemove env message s =
         (Except.ok (), sendMsg (str "REMOVE-SUCCESS " ++ key) s)) ∧
    (∀ obj, env.newObject rfs key = NewObjectResult.ok obj →
       env.deleteFile obj = none →
       handleRemove env message s =
         (Except.ok (), sendMsg (str "REMOVE-SUCCESS " ++ key) s)) ∧
    (∀ obj e, env.newObject rfs key = NewObjectResult.ok obj →
       env.deleteFile obj = some e →
       handleRemove env message s =
         (Except.error (str "error deleting file: \"" ++ key ++ str "\""),
          sendMsg (str "REMOVE-FAILURE " ++ key ++
            str " error deleting file") s)) := by
  have hcommon : handleRemove env message s =
      (match env.newObject rfs key with
       | NewObjectResult.errObjectNotFound =>
         (Except.ok (), sendMsg (str "REMOVE-SUCCESS " ++ key) s)
       | NewObjectResult.errOther e =>
         (Except.error (str "error getting new fs object: " ++ e),
          sendMsg (str "REMOVE-FAILURE " ++ key ++
            str " error getting new fs object: " ++ e) s)
       | NewObjectResult.ok fileObj =>
         match env.deleteFile fileObj with
         | some _ =>
           (Except.error (str "error deleting file: \"" ++ key ++ str "\""),
            sendMsg (str "REMOVE-FAILURE " ++ key ++
              str " error deleting file") s)
         | none =>
           (Except.ok (), sendMsg (str "REMOVE-SUCCESS " ++ key) s)) := by
    simp only [handleRemove, hkey]
    rw [if_neg hne]
    simp only [hlm]
    rw [if_neg (by intro hcon; exact LayoutMode.noConfusion hcon)]
    simp only [hbuild, hget]
  refine ⟨?_, ?_, ?_⟩
  · intro hobj
    rw [hcommon, hobj]
  · intro obj hobj hdel
    rw [hcommon, hobj]
    simp only [hdel]
  · intro obj e hobj hdel
    rw [hcommon, hobj]
    simp only [hdel]

/-- Witness for `handleRemove_outcomes` in a ready session with key `KEY`:
removal of an absent object succeeds, removal of a present object deletes it
and succeeds, and a failed deletion reports a failure naming the key. -/
theorem handleRemove_outcomes_witness :
    handleRemove envAbsent ⟨str "KEY\n"⟩ sReady =
      (Except.ok (), sendMsg (str "REMOVE-SUCCESS " ++ str "KEY") sReady) ∧
    handleRemove envOk ⟨str "KEY\n"⟩ sReady =
      (Except.ok (), sendMsg (str "REMOVE-SUCCESS " ++ str "KEY") sReady) ∧
    handleRemove { envOk with deleteFile := fun _ => some (str "nope") }
        ⟨str "KEY\n"⟩ sReady =
      (Except.error (str "error deleting file: \"" ++ str "KEY" ++ str "\""),
       sendMsg (str "REMOVE-FAILURE " ++ str "KEY" ++
         str " error deleting file") sReady) := by
  refine ⟨?_, ?_, ?_⟩
  · exact (handleRemove_outcomes envAbsent ⟨str "KEY\n"⟩ sReady (str "KEY")
      (str "myremote:git-annex-rclone") (str "nodir") ⟨0⟩ rfl (by decide) rfl
      rfl rfl).1 rfl
  · exact (handleRemove_outcomes envOk ⟨str "KEY\n"⟩ sReady (str "KEY")
      (str "myremote:git-annex-rclone") (str "nodir") ⟨0⟩ rfl (by decide) rfl
      rfl rfl).2.1 ⟨0⟩ rfl rfl
  · exact (handleRemove_outcomes
      { envOk with deleteFile := fun _ => some (str "nope") } ⟨str "KEY\n"⟩
      sReady (str "KEY") (str "myremote:git-annex-rclone") (str "nodir") ⟨0⟩
      rfl (by decide) rfl rfl rfl).2.2 ⟨0⟩ (str "nope") rfl rfl

/-- C6: for TRANSFER RETRIEVE, an object-not-found copy outcome emits
`TRANSFER-FAILURE` and the handler returns no error (the session continues);
a successful copy emits `TRANSFER-SUCCESS RETRIEVE <key>`; any other copy
error emits `TRANSFER-FAILURE` and returns an error. -/
theorem handleTransfer_retrieve_outcomes (env : Backend)
    (m0 m1 m2 : messageParser) (s s₁ : ServerSt) (key file fss lm : Str)
    (rfs lfs : Fs)
    (h1 : m0.nextSpaceDelimitedParameter = Except.ok (str "RETRIEVE", m1))
    (h2 : m1.nextSpaceDelimitedParameter = Except.ok (key, m2))
    (h3 : (m2.finalParameter).1 = file) (hfile : file ≠ [])
    (hq : queryConfigs s = (Except.ok (), s₁))
    (hlm : env.parseLayoutMode s₁.configRcloneLayout = LayoutMode.mode lm)
    (hbuild : env.buildFsString (LayoutMode.mode lm) key
      s₁.configRcloneRemoteName s₁.configPrefixDir = Except.ok fss)
    (hgetR : env.cacheGet fss = Except.ok rfs)
    (hgetL : env.cacheGet (env.filepathDir file) = Except.ok lfs) :
    (env.copyFile lfs rfs (env.filepathBase file) key =
        CopyResult.errObjectNotFound →
       handleTransfer env m0 s =
         (Except.ok (),
          sendMsg (str "TRANSFER-FAILURE " ++ str "RETRIEVE" ++ str " " ++
            key ++ str " not found") s₁)) ∧
    (env.copyFile lfs rfs (env.filepathBase file) key = CopyResult.ok →
       handleTransfer env m0 s =
         (Except.ok (),
          sendMsg (str "TRANSFER-SUCCESS " ++ str "RETRIEVE" ++ str " " ++
            key) s₁)) ∧
    (∀ e, env.copyFile lfs rfs (env.filepathBase file) key =
        CopyResult.errOther e →
       handleTransfer env m0 s =
         (Except.error e,
          sendMsg (str "TRANSFER-FAILURE " ++ str "RETRIEVE" ++ str " " ++
            key ++ str " failed to copy file: " ++ e) s₁)) := by
  have hcommon : handleTransfer env m0 s =
      (match env.copyFile lfs rfs (env.filepathBase file) key with
       | CopyResult.errObjectNotFound =>
         (Except.ok (),
          sendMsg (str "TRANSFER-FAILURE " ++ str "RETRIEVE" ++ str " " ++
            key ++ str " not found") s₁)
       | CopyResult.errOther e =>
         (Except.error e,
          sendMsg (str "TRANSFER-FAILURE " ++ str "RETRIEVE" ++ str " " ++
            key ++ str " failed to copy file: " ++ e) s₁)
       | CopyResult.ok =>
         (Except.ok (),
          sendMsg (str "TRANSFER-SUCCESS " ++ str "RETRIEVE" ++ str " " ++
            key) s₁)) := by
    simp only [handleTransfer, h1, h2, h3]
    rw [if_neg hfile, hq]
    simp only [hlm]
    rw [if_neg (by intro hcon; exact LayoutMode.noConfusion hcon)]
    simp only [hbuild, hgetR, hgetL]
    rw [if_neg (by decide : ¬(str "RETRIEVE" = str "STORE"))]
    simp only [if_true]
  refine ⟨?_, ?_, ?_⟩
  · intro hcopy
    rw [hcommon, hcopy]
  · intro hcopy
    rw [hcommon, hcopy]
  · intro e hcopy
    rw [hcommon, hcopy]

/-- Witness for `handleTransfer_retrieve_outcomes` in a ready session:
retrieving an absent key fails without error, retrieving a present key
succeeds, and a copy error fails with an error. -/
theorem handleTransfer_retrieve_outcomes_witness :
    handleTransfer envCopyAbsent ⟨str "RETRIEVE KEY /tmp/f\n"⟩ sReady =
      (Except.ok (),
       sendMsg (str "TRANSFER-FAILURE " ++ str "RETRIEVE" ++ str " " ++
         str "KEY" ++ str " not found") sReady) ∧
    handleTransfer envOk ⟨str "RETRIEVE KEY /tmp/f\n"⟩ sReady =
      (Except.ok (),
       sendMsg (str "TRANSFER-SUCCESS " ++ str "RETRIEVE" ++ str " " ++
         str "KEY") sReady) ∧
    handleTransfer
        { envOk with copyFile := fun _ _ _ _ => CopyResult.errOther (str "boom") }
        ⟨str "RETRIEVE KEY /tmp/f\n"⟩ sReady =
      (Except.error (str "boom"),
       sendMsg (str "TRANSFER-FAILURE " ++ str "RETRIEVE" ++ str " " ++
         str "KEY" ++ str " failed to copy file: " ++ str "boom") sReady) := by
  refine ⟨?_, ?_, ?_⟩
  · exact (handleTransfer_retrieve_outcomes envCopyAbsent
      ⟨str "RETRIEVE KEY /tmp/f\n"⟩ ⟨str "KEY /tmp/f"⟩ ⟨str "/tmp/f"⟩
      sReady sReady (str "KEY") (str "/tmp/f")
      (str "myremote:git-annex-rclone") (str "nodir") ⟨0⟩ ⟨0⟩ rfl rfl rfl
      (by decide) rfl rfl rfl rfl rfl).1 rfl
  · exact (handleTransfer_retrieve_outcomes envOk
      ⟨str "RETRIEVE KEY /tmp/f\n"⟩ ⟨str "KEY /tmp/f"⟩ ⟨str "/tmp/f"⟩
      sReady sReady (str "KEY") (str "/tmp/f")
      (str "myremote:git-annex-rclone") (str "nodir") ⟨0⟩ ⟨0⟩ rfl rfl rfl
      (by decide) rfl rfl rfl rfl rfl).2.1 rfl
  · exact (handleTransfer_retrieve_outcomes
      { envOk with copyFile := fun _ _ _ _ => CopyResult.errOther (str "boom") }
      ⟨str "RETRIEVE KEY /tmp/f\n"⟩ ⟨str "KEY /tmp/f"⟩ ⟨str "/tmp/f"⟩
      sReady sReady (str "KEY") (str "/tmp/f")
      (str "myremote:git-annex-rclone") (str "nodir") ⟨0⟩ ⟨0⟩ rfl rfl rfl
      (by decide) rfl rfl rfl rfl rfl).2.2 (str "boom") rfl

/-- C7: evaluation of the code at the failing input.  For a TRANSFER message
whose mode (`STORE`) and key (`KEY`) tokens both parse, the layout-parse
failure path emits the line `TRANSFER-FAILURE KEY`, which carries the key but
not the mode, contradicting the requirement that every TRANSFER-FAILURE line
echo both identifying tokens. -/
theorem handleTransfer_layout_failure_omits_mode :
    handleTransfer envUnknownLayout ⟨str "STORE KEY /tmp/f\n"⟩ sBogusLayout =
      (Except.error
         (str "error parsing layout mode: \"" ++ str "bogus" ++ str "\""),
       sendMsg (str "TRANSFER-FAILURE " ++ str "KEY") sBogusLayout) ∧
    strHas (str "TRANSFER-FAILURE " ++ str "KEY") (str "KEY") = true ∧
    strHas (str "TRANSFER-FAILURE " ++ str "KEY") (str "STORE") = false := by
  refine ⟨by rfl, by decide, by decide⟩

/-- C8: in the command loop, a read yielding zero bytes (end of the inbound
stream with no pending partial line) makes `run` terminate cleanly with no
error, while a read error that leaves a partial line without a terminating
newline is fatal and makes `run` return an error. -/
theorem run_stream_end_behavior (env : Backend) (s : ServerSt) (fuel : Nat)
    (hfuel : 0 < fuel) :
    (s.inbound = [ReadOutcome.eofRead] →
       run env fuel s =
         (Except.ok (),
          { s with inbound := [], sent := s.sent ++ [str "VERSION 1"] })) ∧
    (∀ m, s.inbound = [ReadOutcome.errIncomplete m] →
       run env fuel s =
         (Except.error (str "error receiving message: " ++
            (str "expected message to end with newline: \"" ++ m ++ str "\"")),
          { s with inbound := [], sent := s.sent ++ [str "VERSION 1"] })) := by
  cases fuel with
  | zero => exact absurd hfuel (by simp)
  | succ n =>
    constructor
    · intro hin
      simp only [run, runLoop, sendMsg, getMsgM, hin]
    · intro m hin
      simp only [run, runLoop, sendMsg, getMsgM, hin]

/-- Witness for `run_stream_end_behavior`: a fresh session whose single read
outcome is a clean end of stream, and one whose single read outcome is a
truncated line. -/
theorem run_stream_end_behavior_witness :
    run envOk 1 sEof =
      (Except.ok (), { sEof with inbound := [], sent := [str "VERSION 1"] }) ∧
    run envOk 1 sIncomplete =
      (Except.error (str "error receiving message: " ++
         (str "expected message to end with newline: \"" ++ str "EXTEN" ++
           str "\"")),
       { sIncomplete with inbound := [], sent := [str "VERSION 1"] }) := by
  constructor
  · exact (run_stream_end_behavior envOk sEof 1 (by decide)).1 rfl
  · exact (run_stream_end_behavior envOk sIncomplete 1 (by decide)).2
      (str "EXTEN") rfl

theorem noGetconfigExtra_nil (s : ServerSt) :
    ∃ extra, s.sent = s.sent ++ extra ∧
      ∀ x ∈ extra, List.isPrefixOf (str "GETCONFIG") x = false :=
  ⟨[], by simp, by simp⟩

theorem noGetconfigExtra_single (s : ServerSt) (m : Str)
    (h : List.isPrefixOf (str "GETCONFIG") m = false) :
    ∃ extra, (sendMsg m s).sent = s.sent ++ extra ∧
      ∀ x ∈ extra, List.isPrefixOf (str "GETCONFIG") x = false :=
  ⟨[m], rfl, by simpa using h⟩

/-- C9: the REMOVE handler never resolves configuration: it sends no message
beginning with `GETCONFIG` and leaves the configs-resolved flag and all three
session config fields (remote name, prefix directory, layout) exactly as they
were, so a REMOVE received before any config-resolving command operates on
the session's current (possibly empty) config strings. -/
theorem handleRemove_config_frame (env : Backend) (message : messageParser)
    (s : ServerSt) :
    (handleRemove env message s).2.configsDone = s.configsDone ∧
    (handleRemove env message s).2.configPrefixDir = s.configPrefixDir ∧
    (handleRemove env message s).2.configRcloneRemoteName =
      s.configRcloneRemoteName ∧
    (handleRemove env message s).2.configRcloneLayout = s.configRcloneLayout ∧
    ∃ extra, (handleRemove env message s).2.sent = s.sent ++ extra ∧
      ∀ m ∈ extra, List.isPrefixOf (str "GETCONFIG") m = false := by
  simp only [handleRemove]
  split
  · exact ⟨rfl, rfl, rfl, rfl, noGetconfigExtra_nil s⟩
  · split
    · exact ⟨rfl, rfl, rfl, rfl, noGetconfigExtra_single s _ rfl⟩
    · split
      · exact ⟨rfl, rfl, rfl, rfl, noGetconfigExtra_single s _ rfl⟩
      · split
        · exact ⟨rfl, rfl, rfl, rfl, noGetconfigExtra_single s _ rfl⟩
        · split
          · exact ⟨rfl, rfl, rfl, rfl, noGetconfigExtra_single s _ rfl⟩
          · exact ⟨rfl, rfl, rfl, rfl, noGetconfigExtra_single s _ rfl⟩
          · split
            · exact ⟨rfl, rfl, rfl, rfl, noGetconfigExtra_single s _ rfl⟩
            · exact ⟨rfl, rfl, rfl, rfl, noGetconfigExtra_single s _ rfl⟩
